import Mathlib

/-!
Shallow embedding of the slack-leave-app leave-request engine
(`leavebot/slackapp/models.py`, `leavebot/slackapp/views.py`,
`leavebot/slackapp/tasks.py`).

Dates are modelled as natural numbers: proleptic-Gregorian ordinals, exactly as Python's
`datetime.date.toordinal`: day 1 is 0001-01-01, which is a Monday, so
`weekday n = (n - 1) % 7` matches Python's `date.weekday()` (Monday = 0).
The calendar-month of an ordinal is recovered with the standard
days-to-civil conversion, so the `start_date__year/month` filters of the
Django queries are modelled faithfully.

The database is a record of lists (employees, teams, holidays, requests,
audit rows); Django query-sets become list filters over it.  External
messaging (Slack) is modelled by returning the calls a handler would
issue; the stored state never depends on their success, mirroring the
code, which catches `SlackApiError` and keeps the committed transaction.
-/

namespace Leavebot

/-- Python's `date.weekday()`: Monday = 0 … Sunday = 6.  Ordinal 1
(0001-01-01) is a Monday. -/
def weekday (d : Nat) : Nat := (d - 1) % 7

/-- The (year, month) of an ordinal date, by the standard days-to-civil
conversion (`n + 305` is the number of days since 0000-03-01). -/
def civilYearMonth (n : Nat) : Nat × Nat :=
  let z := n + 305
  let era := z / 146097
  let doe := z % 146097
  let yoe := (doe - doe / 1460 + doe / 36524 - doe / 146096) / 365
  let y := yoe + era * 400
  let doy := doe - (365 * yoe + yoe / 4 - yoe / 100)
  let mp := (5 * doy + 2) / 153
  let m := if mp < 10 then mp + 3 else mp - 9
  (if m ≤ 2 then y + 1 else y, m)

/-- `start_date__year = y and start_date__month = m` for the month of a
reference date (the code compares against `start_date.replace(day=1)`,
whose year and month equal those of `start_date`). -/
def sameMonth (a b : Nat) : Bool := decide (civilYearMonth a = civilYearMonth b)

/-- `LeaveRequest.STATUS_CHOICES` (models.py). -/
inductive Status where
  | pending
  | approved
  | rejected
  | cancelled
deriving DecidableEq, Repr

/-- The audit `action` string written for a status (the decide handler
logs `leave_request.status` itself as the action). -/
def statusString : Status → String
  | .pending => "pending"
  | .approved => "approved"
  | .rejected => "rejected"
  | .cancelled => "cancelled"

/-- `Team` (models.py): announcement channel may be blank, modelled as
`none`. -/
structure Team where
  id : Nat
  name : String
  slack_channel_id : Option String
deriving DecidableEq, Repr

/-- `Employee` (models.py).  `manager` and `team` are nullable foreign
keys, stored as ids into the employee / team arenas. -/
structure Employee where
  id : Nat
  slack_user_id : String
  name : String
  manager : Option Nat
  team : Option Nat
  monthly_leave_allowance : Nat
deriving DecidableEq, Repr

/-- `LeaveRequest` (models.py).  The Slack integration fields are blank
until the approval prompt is first sent, modelled as `none`. -/
structure LeaveRequest where
  id : Nat
  employee : Nat
  leaveType : String
  start_date : Nat
  end_date : Nat
  reason : String
  status : Status
  approver : Option Nat
  slack_channel_id : Option String
  slack_message_ts : Option String
deriving DecidableEq, Repr

/-- `LeaveRequestAudit` (models.py): immutable log row. -/
structure LeaveRequestAudit where
  leave_request : Nat
  action : String
  performed_by : Option Nat
deriving DecidableEq, Repr

/-- The persistent store: entity tables as lists.  Audit rows are
appended in creation order. -/
structure Db where
  employees : List Employee
  teams : List Team
  holidays : List Nat
  requests : List LeaveRequest
  audits : List LeaveRequestAudit
deriving Repr

def employeeById (db : Db) (eid : Nat) : Option Employee :=
  db.employees.find? fun emp => decide (emp.id = eid)

def teamById (db : Db) (tid : Nat) : Option Team :=
  db.teams.find? fun t => decide (t.id = tid)

def requestById (db : Db) (rid : Nat) : Option LeaveRequest :=
  db.requests.find? fun r => decide (r.id = rid)

/-- `Holiday.objects.filter(date__range=[start, end])`. -/
def holidaysInRange (holidays : List Nat) (s e : Nat) : List Nat :=
  holidays.filter fun d => decide (s ≤ d) && decide (d ≤ e)

/-- One day of the counting loops: a weekday (Mon–Fri) that is not a
listed holiday. -/
def isBusinessDay (holidays : List Nat) (d : Nat) : Bool :=
  decide (weekday d < 5) && !(holidays.contains d)

/-- The inline day-counting loop of `validate_leave_request`
(views.py 200–206): iterate the inclusive range, count business days.
An empty range (`end < start`) contributes zero iterations. -/
def validationRequestedDays (holidays : List Nat) (s e : Nat) : Nat :=
  let hs := holidaysInRange holidays s e
  (List.range (e + 1 - s)).countP fun i => isBusinessDay hs (s + i)

/-- `LeaveRequest.duration_days` (models.py 213–245): the same counting
loop, but a zero count is rounded up to 1 ("A request must be for at
least one day, even if it falls on a holiday."). -/
def durationDays (holidays : List Nat) (s e : Nat) : Nat :=
  let hs := holidaysInRange holidays s e
  let business_days := (List.range (e + 1 - s)).countP fun i => isBusinessDay hs (s + i)
  if business_days > 0 then business_days else 1

/-- The leave types treated as retrospective, `["Unplanned", "Emergency"]`
(views.py lines 185 and 499). -/
def retrospectiveTypes : List String := ["Unplanned", "Emergency"]

/-- `ValidationResult` failure reasons, one per error branch of
`validate_leave_request`.  `AllowanceExceeded` records the requested day
count and the remaining balance exactly as the error message reports
them. -/
inductive ValidationError where
  | UnplannedFuture
  | UnplannedTooOld
  | PastDate
  | InvalidRange
  | NonWorkingRange
  | Overlap
  | AllowanceExceeded (requested : Nat) (remaining : Int)
deriving DecidableEq, Repr

/-- Step 1 of `validate_leave_request` (views.py 183–194): the
conditional past-date policy.  `today - 30` is `today - timedelta(days=30)`
(all realistic ordinals exceed 30). -/
def pastDateCheck (today startD : Nat) (leave_type_str : String) : Option ValidationError :=
  if retrospectiveTypes.contains leave_type_str then
    if today < startD then some .UnplannedFuture
    else if startD < today - 30 then some .UnplannedTooOld
    else none
  else
    if startD < today then some .PastDate
    else none

/-- `exclude(id=leave_request_to_exclude.id)`, applied only when an
exclusion is given. -/
def notExcluded (exclude : Option Nat) (rid : Nat) : Bool :=
  match exclude with
  | some x => decide (¬ x = rid)
  | none => true

/-- Step 3 of `validate_leave_request` (views.py 211–222): a pending or
approved request of the same employee with `start_date ≤ end` and
`end_date ≥ start`, the edited request excluded. -/
def overlapExists (requests : List LeaveRequest) (empId : Nat) (s e : Nat)
    (exclude : Option Nat) : Bool :=
  requests.any fun r =>
    decide (r.employee = empId) &&
    (decide (r.status = Status.pending) || decide (r.status = Status.approved)) &&
    decide (r.start_date ≤ e) && decide (s ≤ r.end_date) &&
    notExcluded exclude r.id

/-- Step 4's query (views.py 226–233): pending or approved requests of
the employee whose start falls in the calendar month of the new start,
the edited request excluded. -/
def requestsThisMonth (requests : List LeaveRequest) (empId : Nat) (startD : Nat)
    (exclude : Option Nat) : List LeaveRequest :=
  requests.filter fun r =>
    decide (r.employee = empId) &&
    (decide (r.status = Status.pending) || decide (r.status = Status.approved)) &&
    sameMonth r.start_date startD &&
    notExcluded exclude r.id

/-- `sum(req.duration_days for req in requests_this_month_query)`
(views.py 235). -/
def daysTaken (holidays : List Nat) (requests : List LeaveRequest) (empId : Nat)
    (startD : Nat) (exclude : Option Nat) : Nat :=
  (requestsThisMonth requests empId startD exclude).foldl
    (fun acc r => acc + durationDays holidays r.start_date r.end_date) 0

/-- `validate_leave_request` (views.py 170–249), with `date.today()`
passed in as `today`.  Returns `none` when all checks pass, otherwise
the first failing rule's reason, in the code's order: past-date policy,
end-before-start, non-working range, overlap, monthly allowance. -/
def validate_leave_request (db : Db) (today : Nat) (employee : Employee)
    (start_date end_date : Nat) (leave_type_str : String)
    (exclude : Option Nat) : Option ValidationError :=
  match pastDateCheck today start_date leave_type_str with
  | some err => some err
  | none =>
    if end_date < start_date then some .InvalidRange
    else
      let requested_days := validationRequestedDays db.holidays start_date end_date
      if requested_days = 0 then some .NonWorkingRange
      else if overlapExists db.requests employee.id start_date end_date exclude then
        some .Overlap
      else
        let days_taken := daysTaken db.holidays db.requests employee.id start_date exclude
        let remaining_allowance : Int :=
          (employee.monthly_leave_allowance : Int) - (days_taken : Int)
        if (requested_days : Int) > remaining_allowance then
          some (.AllowanceExceeded requested_days remaining_allowance)
        else none

/-! ## Lifecycle handlers (views.py) -/

/-- How a handler's transaction ends: committed, refused with a
conflict ("already been actioned"), refused with a validation error
(rendered as form errors), entity missing, or an unrecognised action id
(HTTP 400). -/
inductive OpResult where
  | ok
  | conflict
  | validationFailed (err : ValidationError)
  | notFound
  | badAction
deriving DecidableEq, Repr

/-- Replace the row with the given id (the effect of `save()` on a
fetched row). -/
def replaceRequest (requests : List LeaveRequest) (rid : Nat)
    (newReq : LeaveRequest) : List LeaveRequest :=
  requests.map fun r => if r.id = rid then newReq else r

/-- A handler's committed state plus the channel (if any) a public
announcement is posted to. -/
structure HandlerOutcome where
  db : Db
  result : OpResult
  announcement : Option String
deriving Repr

/-- `post_public_announcement` (views.py 618–656): returns the channel
the announcement goes to — the employee's team channel when the team and
its channel are set, else the configured fallback channel — or `none`
when neither is configured (announcement skipped). -/
def post_public_announcement (db : Db) (fallback : Option String)
    (req : LeaveRequest) : Option String :=
  let teamChannel : Option String :=
    match employeeById db req.employee with
    | some emp =>
      match emp.team with
      | some tid =>
        match teamById db tid with
        | some team => team.slack_channel_id
        | none => none
      | none => none
    | none => none
  match teamChannel with
  | some c => some c
  | none => fallback

/-- The state-changing core of `handle_modal_submission`
(views.py 391–443): validate (no exclusion), then insert a pending
request with a fresh id and append an audit row "created". -/
def handle_modal_submission (db : Db) (today : Nat) (employee : Employee)
    (start_date end_date : Nat) (leave_type_str reason : String)
    (newId : Nat) : Db × OpResult :=
  match validate_leave_request db today employee start_date end_date leave_type_str none with
  | some err => (db, .validationFailed err)
  | none =>
    let req : LeaveRequest :=
      { id := newId, employee := employee.id, leaveType := leave_type_str,
        start_date := start_date, end_date := end_date, reason := reason,
        status := .pending, approver := none,
        slack_channel_id := none, slack_message_ts := none }
    ({ db with
        requests := db.requests ++ [req],
        audits := db.audits ++ [⟨newId, "created", some employee.id⟩] },
     .ok)

/-- The state-changing core of `handle_update_submission`
(views.py 329–388): fetch the request, re-validate with the request
itself excluded, overwrite its fields and append an audit row "updated".
Note: the handler performs no status check — it never refuses a
non-pending request. -/
def handle_update_submission (db : Db) (today : Nat) (request_id : Nat)
    (start_date end_date : Nat) (leave_type_str reason : String) : Db × OpResult :=
  match requestById db request_id with
  | none => (db, .notFound)
  | some req =>
    match employeeById db req.employee with
    | none => (db, .notFound)
    | some employee =>
      match validate_leave_request db today employee start_date end_date
          leave_type_str (some request_id) with
      | some err => (db, .validationFailed err)
      | none =>
        let req1 : LeaveRequest :=
          { req with start_date := start_date, end_date := end_date,
                     leaveType := leave_type_str, reason := reason }
        ({ db with
            requests := replaceRequest db.requests request_id req1,
            audits := db.audits ++ [⟨request_id, "updated", some employee.id⟩] },
         .ok)

/-- The state-changing core of `handle_cancel_submission`
(views.py 285–327): only a pending request may be cancelled; a
non-pending one yields the "already been actioned" message and no
mutation.  Cancellation never posts a public announcement. -/
def handle_cancel_submission (db : Db) (request_id : Nat) : HandlerOutcome :=
  match requestById db request_id with
  | none => ⟨db, .notFound, none⟩
  | some req =>
    if req.status = .pending then
      let req1 : LeaveRequest := { req with status := .cancelled }
      ⟨{ db with
          requests := replaceRequest db.requests request_id req1,
          audits := db.audits ++ [⟨request_id, "cancelled", some req.employee⟩] },
       .ok, none⟩
    else ⟨db, .conflict, none⟩

/-- The decide branch of `handle_button_actions` (views.py 446–512):
a non-pending request yields the "already been actioned" message and no
mutation; approving a leave type outside the retrospective set posts the
public announcement; the approver and an audit row named after the new
status are recorded. -/
def handle_button_actions_decide (db : Db) (fallback : Option String)
    (manager : Employee) (action_id : String) (request_id : Nat) : HandlerOutcome :=
  match requestById db request_id with
  | none => ⟨db, .notFound, none⟩
  | some req =>
    if req.status = .pending then
      if action_id = "approve_leave" then
        let req1 : LeaveRequest := { req with status := .approved }
        let announcement : Option String :=
          if retrospectiveTypes.contains req1.leaveType then none
          else post_public_announcement db fallback req1
        let req2 : LeaveRequest := { req1 with approver := some manager.id }
        ⟨{ db with
            requests := replaceRequest db.requests request_id req2,
            audits := db.audits ++ [⟨request_id, statusString req2.status, some manager.id⟩] },
         .ok, announcement⟩
      else if action_id = "reject_leave" then
        let req2 : LeaveRequest := { req with status := .rejected, approver := some manager.id }
        ⟨{ db with
            requests := replaceRequest db.requests request_id req2,
            audits := db.audits ++ [⟨request_id, statusString req2.status, some manager.id⟩] },
         .ok, none⟩
      else ⟨db, .badAction, none⟩
    else ⟨db, .conflict, none⟩

/-! ## Notification calls of the update flow (views.py 371–380, 563–596) -/

/-- External Slack calls a handler issues (message contents abstracted
away; only destinations and message identities are kept). -/
inductive SlackCall where
  | postThread (channel ts : String)
  | chatUpdate (channel ts : String)
  | postDM (employee : Nat)
  | approvalPrompt (channel : String)
deriving DecidableEq, Repr

/-- `update_approval_message` (views.py 563–596): when the request has
no stored (channel, ts) handle it logs an error and returns without
calling Slack; otherwise it issues `chat_update` on exactly that
handle.  Returns the handle updated, or `none` when skipped. -/
def update_approval_message (req : LeaveRequest) : Option (String × String) :=
  match req.slack_channel_id, req.slack_message_ts with
  | some c, some ts => some (c, ts)
  | some _, none => none
  | none, some _ => none
  | none, none => none

/-- The Slack calls of a successful `handle_update_submission`
(views.py 371–380): a threaded note when a handle exists, then
`update_approval_message`, then the confirmation DM to the employee.
`send_approval_request` is never called on this path. -/
def updateFlowNotifications (req : LeaveRequest) : List SlackCall :=
  (match req.slack_channel_id, req.slack_message_ts with
   | some c, some ts => [SlackCall.postThread c ts]
   | _, _ => []) ++
  (match update_approval_message req with
   | some (c, ts) => [SlackCall.chatUpdate c ts]
   | none => []) ++
  [SlackCall.postDM req.employee]

/-! ## Reminder task (tasks.py 33–86) -/

/-- `leave_request.employee.manager`, resolved through the arenas. -/
def managerOf (db : Db) (req : LeaveRequest) : Option Employee :=
  match employeeById db req.employee with
  | some emp =>
    match emp.manager with
    | some mid => employeeById db mid
    | none => none
  | none => none

/-- `send_manager_reminder` (tasks.py 33–86): re-read the request; when
it still exists, is still pending and the employee has a manager, DM the
manager (returned as `some slack_user_id`); in every other case — the
request was deleted, already actioned, or has no manager — log and do
nothing.  The task never writes to the store. -/
def send_manager_reminder (db : Db) (leave_request_id : Nat) : Db × Option String :=
  match requestById db leave_request_id with
  | none => (db, none)
  | some req =>
    if req.status = .pending then
      match managerOf db req with
      | some m => (db, some m.slack_user_id)
      | none => (db, none)
    else (db, none)

/-! ## Concrete fixtures

Ordinal dates used below (Python `date.toordinal`): 738886 = Monday
2024-01-01, 738891/738892 = Saturday/Sunday Jan 6–7, 738893 = Monday
Jan 8, 738894 = Tuesday Jan 9, 738895 = Wednesday Jan 10, 738897 =
Friday Jan 12, 738883 = Friday 2023-12-29. -/

def sampleEmployee : Employee :=
  { id := 1, slack_user_id := "U1", name := "Alice", manager := none,
    team := none, monthly_leave_allowance := 2 }

def sampleManager : Employee :=
  { id := 2, slack_user_id := "U2", name := "Bob", manager := none,
    team := none, monthly_leave_allowance := 2 }

def engineering : Team := { id := 7, name := "Engineering", slack_channel_id := some "C-ENG" }

def teamEmployee : Employee :=
  { id := 1, slack_user_id := "U1", name := "Alice", manager := some 2,
    team := some 7, monthly_leave_allowance := 2 }

def emptyDb : Db :=
  { employees := [sampleEmployee, sampleManager], teams := [], holidays := [],
    requests := [], audits := [] }

/-- A pending request for Mon Jan 8 – Wed Jan 10 2024, approval prompt
not yet delivered (no Slack handle). -/
def pendingRequest : LeaveRequest :=
  { id := 10, employee := 1, leaveType := "Vacation", start_date := 738893,
    end_date := 738895, reason := "trip", status := .pending, approver := none,
    slack_channel_id := none, slack_message_ts := none }

def approvedRequest : LeaveRequest := { pendingRequest with status := .approved, approver := some 2 }

def cancelledRequest : LeaveRequest := { pendingRequest with status := .cancelled }

/-- The pending request once the approval prompt has been sent and its
(channel, ts) handle stored. -/
def handleRequest : LeaveRequest :=
  { pendingRequest with slack_channel_id := some "C-MGR", slack_message_ts := some "1704100000.000100" }

/-- A pending request spanning Fri 2023-12-29 – Tue 2024-01-09: it does
not start in January 2024 but overlaps ranges early that month. -/
def spanningRequest : LeaveRequest :=
  { pendingRequest with start_date := 738883, end_date := 738894 }

def pendingDb : Db := { emptyDb with requests := [pendingRequest] }

def approvedDb : Db := { emptyDb with requests := [approvedRequest] }

def cancelledDb : Db := { emptyDb with requests := [cancelledRequest] }

def spanningDb : Db := { emptyDb with requests := [spanningRequest] }

def teamDb : Db :=
  { employees := [teamEmployee, sampleManager], teams := [engineering],
    holidays := [], requests := [pendingRequest], audits := [] }

/-! ## Helper lemmas -/

theorem any_congr_mem {α : Type} {l : List α} {p q : α → Bool}
    (h : ∀ x ∈ l, p x = q x) : l.any p = l.any q := by
  induction l with
  | nil => rfl
  | cons a t ih =>
    simp only [List.any_cons, h a (by simp)]
    rw [ih fun x hx => h x (by simp [hx])]

theorem start_le_end_of_requested_ne_zero {holidays : List Nat} {s e : Nat}
    (h : validationRequestedDays holidays s e ≠ 0) : s ≤ e := by
  rcases Nat.lt_or_ge e s with hlt | hge
  · exfalso
    apply h
    have hz : e + 1 - s = 0 := by omega
    simp [validationRequestedDays, hz]
  · exact hge

theorem pastDateCheck_cases (today s : Nat) (lt : String) :
    pastDateCheck today s lt = none ∨
    pastDateCheck today s lt = some .UnplannedFuture ∨
    pastDateCheck today s lt = some .UnplannedTooOld ∨
    pastDateCheck today s lt = some .PastDate := by
  unfold pastDateCheck
  split
  · split
    · simp
    · split <;> simp
  · split <;> simp

theorem validate_overlap_inv {db : Db} {today : Nat} {emp : Employee}
    {s e : Nat} {lt : String} {ex : Option Nat}
    (h : validate_leave_request db today emp s e lt ex = some .Overlap) :
    overlapExists db.requests emp.id s e ex = true := by
  rcases pastDateCheck_cases today s lt with hp | hp | hp | hp <;>
    simp only [validate_leave_request, hp] at h
  · split at h
    · simp at h
    · split at h
      · simp at h
      · split at h
        · assumption
        · split at h <;> simp at h
  all_goals simp at h

theorem one_le_durationDays (holidays : List Nat) (s e : Nat) :
    1 ≤ durationDays holidays s e := by
  simp only [durationDays]
  split <;> omega

theorem daysTaken_foldl_ge (holidays : List Nat) (l : List LeaveRequest) :
    ∀ acc : Nat, acc + l.length ≤
      l.foldl (fun a r => a + durationDays holidays r.start_date r.end_date) acc := by
  induction l with
  | nil => intro acc; simp
  | cons a t ih =>
    intro acc
    have h1 := ih (acc + durationDays holidays a.start_date a.end_date)
    have h2 := one_le_durationDays holidays a.start_date a.end_date
    simp only [List.foldl_cons, List.length_cons]
    omega

theorem find?_replaceRequest (rs : List LeaveRequest) (rid : Nat) (req req1 : LeaveRequest)
    (h : rs.find? (fun r => decide (r.id = rid)) = some req) (hid : req1.id = rid) :
    (replaceRequest rs rid req1).find? (fun r => decide (r.id = rid)) = some req1 := by
  induction rs with
  | nil => simp at h
  | cons a t ih =>
    by_cases ha : a.id = rid
    · simp only [replaceRequest, List.map_cons, if_pos ha]
      exact List.find?_cons_of_pos _ (by simp [hid])
    · have h' : t.find? (fun r => decide (r.id = rid)) = some req := by
        rw [List.find?_cons_of_neg _ (by simp [ha])] at h
        exact h
      simp only [replaceRequest, List.map_cons, if_neg ha]
      rw [List.find?_cons_of_neg _ (by simp [ha])]
      exact ih h'

/-! ## C1 -/

/-- C1: refuted as stated — the past-date rule runs before the
`end < start` rule, so `start > end` with a past planned start reports
PastDate, not InvalidRange (`C1_invalid_range_after_past_rule` proves
the amended ordering). -/
theorem C1_counterexample :
    738884 < 738885 ∧
    validate_leave_request emptyDb 738886 sampleEmployee 738885 738884 "Vacation" none =
      some ValidationError.PastDate := by
  constructor
  · decide
  · decide

/-- C1 (amended): for every input with `start > end`, validation fails,
and the reported reason is InvalidRange exactly when the past-date rule
(which the code applies first) passes; otherwise the past-date rule's
reason is reported. -/
theorem C1_invalid_range_after_past_rule (db : Db) (today : Nat) (emp : Employee)
    (s e : Nat) (lt : String) (ex : Option Nat) (h : e < s) :
    validate_leave_request db today emp s e lt ex =
      some ((pastDateCheck today s lt).getD ValidationError.InvalidRange) := by
  rcases pastDateCheck_cases today s lt with hp | hp | hp | hp <;>
    simp [validate_leave_request, hp, h]

/-- C1 amended-theorem witness: a future range with `start > end` is
rejected with InvalidRange. -/
theorem C1_witness :
    738889 < 738890 ∧
    validate_leave_request emptyDb 738886 sampleEmployee 738890 738889 "Vacation" none =
      some ((pastDateCheck 738886 738890 "Vacation").getD ValidationError.InvalidRange) :=
  ⟨by decide,
   C1_invalid_range_after_past_rule emptyDb 738886 sampleEmployee 738890 738889
     "Vacation" none (by decide)⟩

/-! ## C2 -/

/-- C2: a date range all of whose days are weekend days or listed
holidays yields a business-day count of 0 in the validation loop (no
rounding up to 1), and — whenever the earlier rules pass — validation
rejects it with NonWorkingRange. -/
theorem C2_nonworking_range (db : Db) (today : Nat) (emp : Employee)
    (s e : Nat) (lt : String) (ex : Option Nat)
    (hdays : ∀ d : Nat, s ≤ d → d ≤ e →
      isBusinessDay (holidaysInRange db.holidays s e) d = false)
    (hpast : pastDateCheck today s lt = none) (hse : s ≤ e) :
    validationRequestedDays db.holidays s e = 0 ∧
    validate_leave_request db today emp s e lt ex = some ValidationError.NonWorkingRange := by
  have hzero : validationRequestedDays db.holidays s e = 0 := by
    simp only [validationRequestedDays]
    rw [List.countP_eq_zero]
    intro i hi
    have hilt : i < e + 1 - s := List.mem_range.mp hi
    exact (hdays (s + i) (by omega) (by omega)).symm ▸ (by simp)
  refine ⟨hzero, ?_⟩
  have hns : ¬ e < s := by omega
  simp [validate_leave_request, hpast, hns, hzero]

/-- C2 witness: Saturday–Sunday Jan 6–7 2024, planned type, no
holidays: count 0 and NonWorkingRange. -/
theorem C2_witness :
    validationRequestedDays emptyDb.holidays 738891 738892 = 0 ∧
    validate_leave_request emptyDb 738886 sampleEmployee 738891 738892 "Vacation" none =
      some ValidationError.NonWorkingRange :=
  C2_nonworking_range emptyDb 738886 sampleEmployee 738891 738892 "Vacation" none
    (by
      intro d h1 h2
      have : d = 738891 ∨ d = 738892 := by omega
      rcases this with rfl | rfl <;> decide)
    (by decide) (by decide)

/-! ## C8 -/

/-- C8: the reminder task sends a manager DM iff the request still
exists, is still pending and the employee has a (resolvable) manager; in
every other case it is a silent no-op, and it never changes the stored
state, so repeated firing is idempotent. -/
theorem C8_reminder_iff (db : Db) (rid : Nat) :
    (send_manager_reminder db rid).1 = db ∧
    ((send_manager_reminder db rid).2.isSome ↔
      ∃ r, requestById db rid = some r ∧ r.status = Status.pending ∧
        managerOf db r ≠ none) := by
  constructor
  · simp only [send_manager_reminder]
    split
    · rfl
    · split
      · split <;> rfl
      · rfl
  · simp only [send_manager_reminder]
    cases hreq : requestById db rid with
    | none => simp [hreq]
    | some req =>
      by_cases hst : req.status = Status.pending
      · cases hmgr : managerOf db req with
        | none => simp [hreq, hst, hmgr]
        | some m => simp [hreq, hst, hmgr]
      · simp [hreq, hst]

/-! ## C10 -/

/-- C10: the two embedded business-day calculators — the inline loop of
`validate_leave_request` and the stored request's `duration_days`
property — agree whenever the range has at least one business day, and
disagree on zero-business-day ranges, where the loop yields 0 and
`duration_days` yields 1; consequently the monthly-allowance sum charges
at least one day per counted request. -/
theorem C10_two_calculators (holidays : List Nat) (s e : Nat) :
    (validationRequestedDays holidays s e ≠ 0 →
      durationDays holidays s e = validationRequestedDays holidays s e) ∧
    (validationRequestedDays holidays s e = 0 →
      durationDays holidays s e = 1 ∧
      durationDays holidays s e ≠ validationRequestedDays holidays s e) ∧
    (∀ (requests : List LeaveRequest) (empId : Nat) (startD : Nat) (ex : Option Nat),
      (requestsThisMonth requests empId startD ex).length ≤
        daysTaken holidays requests empId startD ex) := by
  refine ⟨?_, ?_, ?_⟩
  · intro h
    simp only [durationDays, validationRequestedDays] at *
    split <;> omega
  · intro h
    simp only [durationDays, validationRequestedDays] at *
    constructor
    · split <;> omega
    · split <;> omega
  · intro requests empId startD ex
    have h := daysTaken_foldl_ge holidays (requestsThisMonth requests empId startD ex) 0
    simpa [daysTaken] using h

/-- C10 witness: on the weekend Jan 6–7 2024 the loop gives 0 while
`duration_days` gives 1; on Mon–Tue Jan 8–9 both give 2. -/
theorem C10_witness :
    durationDays [] 738891 738892 = 1 ∧
    durationDays [] 738891 738892 ≠ validationRequestedDays [] 738891 738892 ∧
    durationDays [] 738893 738894 = validationRequestedDays [] 738893 738894 :=
  ⟨((C10_two_calculators [] 738891 738892).2.1 (by decide)).1,
   ((C10_two_calculators [] 738891 738892).2.1 (by decide)).2,
   (C10_two_calculators [] 738893 738894).1 (by decide)⟩

/-! ## C3 -/

/-- C3: refuted as stated — `handle_update_submission` performs no
status check, so updating an already-approved request succeeds and
mutates the store instead of signalling Conflict
(`C3_terminal_absorbing` proves the amended statement for cancel and
decide). -/
theorem C3_counterexample :
    (requestById approvedDb 10).map LeaveRequest.status = some Status.approved ∧
    (handle_update_submission approvedDb 738886 10 738896 738896 "Vacation" "new").2 =
      OpResult.ok ∧
    (handle_update_submission approvedDb 738886 10 738896 738896 "Vacation" "new").1.requests ≠
      approvedDb.requests := by
  refine ⟨by decide, by decide, by decide⟩

/-- C3 (amended): for every request whose status is not pending, cancel
and decide signal Conflict and leave the store unchanged — in
particular a second decide on an already-decided request returns
Conflict and changes nothing, whatever the outcome argument; update,
however, performs no status check and will overwrite a non-pending
request when the new values pass validation. -/
theorem C3_terminal_absorbing (db : Db) (rid : Nat) (r : LeaveRequest)
    (hfind : requestById db rid = some r) (hnp : r.status ≠ Status.pending) :
    handle_cancel_submission db rid = ⟨db, OpResult.conflict, none⟩ ∧
    ∀ (fallback : Option String) (manager : Employee) (action_id : String),
      handle_button_actions_decide db fallback manager action_id rid =
        ⟨db, OpResult.conflict, none⟩ := by
  constructor
  · simp [handle_cancel_submission, hfind, hnp]
  · intro fallback manager action_id
    simp [handle_button_actions_decide, hfind, hnp]

/-- C3 amended-theorem witness: cancel and decide on an approved
request both return Conflict and leave the store as it was. -/
theorem C3_witness :
    requestById approvedDb 10 = some approvedRequest ∧
    approvedRequest.status ≠ Status.pending ∧
    handle_cancel_submission approvedDb 10 = ⟨approvedDb, OpResult.conflict, none⟩ ∧
    handle_button_actions_decide approvedDb (some "C-FB") sampleManager "approve_leave" 10 =
      ⟨approvedDb, OpResult.conflict, none⟩ :=
  ⟨by decide, by decide,
   (C3_terminal_absorbing approvedDb 10 approvedRequest (by decide) (by decide)).1,
   (C3_terminal_absorbing approvedDb 10 approvedRequest (by decide) (by decide)).2
     (some "C-FB") sampleManager "approve_leave"⟩

/-! ## C4 -/

/-- C4: refuted as stated — for a request with no stored message
handle, the update flow does not fall back to `on_created`: no fresh
approval prompt is sent and no handle is stored; the message update is
simply skipped (`C4_update_notifications` proves the amended
statement). -/
theorem C4_counterexample :
    pendingRequest.slack_channel_id = none ∧
    pendingRequest.slack_message_ts = none ∧
    update_approval_message pendingRequest = none ∧
    updateFlowNotifications pendingRequest = [SlackCall.postDM 1] ∧
    (handle_update_submission pendingDb 738886 10 738896 738896 "Vacation" "new").2 =
      OpResult.ok ∧
    (requestById (handle_update_submission pendingDb 738886 10 738896 738896 "Vacation" "new").1
        10).map (fun r => (r.slack_channel_id, r.slack_message_ts)) = some (none, none) := by
  refine ⟨rfl, rfl, by decide, by decide, by decide, by decide⟩

/-- C4 (amended): when the request has no stored handle, the update
flow skips the approval-message update entirely — it neither posts a
fresh approval prompt nor stores a handle, and only the employee's
confirmation DM is sent; when a handle exists, exactly that message is
updated in place (plus a threaded note) and no new top-level approval
message is ever posted; the stored handle survives an update
unchanged. -/
theorem C4_update_notifications (req : LeaveRequest) :
    ((req.slack_channel_id = none ∨ req.slack_message_ts = none) →
      update_approval_message req = none ∧
      updateFlowNotifications req = [SlackCall.postDM req.employee]) ∧
    (∀ c ts, req.slack_channel_id = some c → req.slack_message_ts = some ts →
      update_approval_message req = some (c, ts) ∧
      updateFlowNotifications req =
        [SlackCall.postThread c ts, SlackCall.chatUpdate c ts, SlackCall.postDM req.employee]) ∧
    (∀ (db : Db) (today s e : Nat) (lt reason : String) (r1 : LeaveRequest),
      requestById db req.id = some req →
      requestById (handle_update_submission db today req.id s e lt reason).1 req.id = some r1 →
      r1.slack_channel_id = req.slack_channel_id ∧
      r1.slack_message_ts = req.slack_message_ts) := by
  refine ⟨?_, ?_, ?_⟩
  · intro h
    cases hc : req.slack_channel_id with
    | none => cases hts : req.slack_message_ts with
      | none => simp [update_approval_message, updateFlowNotifications, hc, hts]
      | some ts => simp [update_approval_message, updateFlowNotifications, hc, hts]
    | some c => cases hts : req.slack_message_ts with
      | none => simp [update_approval_message, updateFlowNotifications, hc, hts]
      | some ts => rw [hc, hts] at h; rcases h with h | h <;> simp at h
  · intro c ts hc hts
    simp [update_approval_message, updateFlowNotifications, hc, hts]
  · intro db today s e lt reason r1 hfind hfind1
    cases hemp : employeeById db req.employee with
    | none =>
      have hres : (handle_update_submission db today req.id s e lt reason).1 = db := by
        simp [handle_update_submission, hfind, hemp]
      rw [hres, hfind] at hfind1
      cases hfind1
      exact ⟨rfl, rfl⟩
    | some emp =>
      cases hval : validate_leave_request db today emp s e lt (some req.id) with
      | some err =>
        have hres : (handle_update_submission db today req.id s e lt reason).1 = db := by
          simp [handle_update_submission, hfind, hemp, hval]
        rw [hres, hfind] at hfind1
        cases hfind1
        exact ⟨rfl, rfl⟩
      | none =>
        have hres : requestById (handle_update_submission db today req.id s e lt reason).1 req.id
            = some { req with start_date := s, end_date := e, leaveType := lt, reason := reason } := by
          simp only [handle_update_submission, hfind, hemp, hval]
          exact find?_replaceRequest db.requests req.id req _ hfind rfl
        rw [hres] at hfind1
        cases hfind1
        exact ⟨rfl, rfl⟩

/-- C4 amended-theorem witness: with a stored handle, the update flow
issues exactly a threaded note, an in-place update of that handle, and
the employee DM — no new approval prompt. -/
theorem C4_witness :
    update_approval_message handleRequest = some ("C-MGR", "1704100000.000100") ∧
    updateFlowNotifications handleRequest =
      [SlackCall.postThread "C-MGR" "1704100000.000100",
       SlackCall.chatUpdate "C-MGR" "1704100000.000100",
       SlackCall.postDM 1] :=
  (C4_update_notifications handleRequest).2.1 "C-MGR" "1704100000.000100" rfl rfl

/-! ## C5 -/

/-- C5: refuted as stated — the stated precondition only excludes
pending/approved requests starting in the proposed month, but a pending
request starting the previous month that spans into the proposed range
still triggers the Overlap rule, so the 2-business-day request is
rejected rather than accepted (`C5_allowance_boundary` proves the
amended statement). -/
theorem C5_counterexample :
    sampleEmployee.monthly_leave_allowance = 2 ∧
    (∀ r ∈ spanningDb.requests,
      r.employee = sampleEmployee.id →
      (r.status = Status.pending ∨ r.status = Status.approved) →
      sameMonth r.start_date 738893 = false) ∧
    validationRequestedDays spanningDb.holidays 738893 738894 = 2 ∧
    validate_leave_request spanningDb 738886 sampleEmployee 738893 738894 "Vacation" none =
      some ValidationError.Overlap := by
  refine ⟨rfl, by decide, by decide, by decide⟩

/-- C5 (amended): for an employee with monthly allowance 2, no pending
or approved requests starting in the month of the proposed start, and
no pending or approved request overlapping the proposed range, a
request of exactly 2 business days passes validation while one of 3
business days fails with AllowanceExceeded reporting remaining = 2. -/
theorem C5_allowance_boundary (db : Db) (today : Nat) (emp : Employee)
    (s e2 e3 : Nat) (lt : String)
    (hallow : emp.monthly_leave_allowance = 2)
    (hmonth : requestsThisMonth db.requests emp.id s none = [])
    (hover2 : overlapExists db.requests emp.id s e2 none = false)
    (hover3 : overlapExists db.requests emp.id s e3 none = false)
    (hpast : pastDateCheck today s lt = none)
    (h2 : validationRequestedDays db.holidays s e2 = 2)
    (h3 : validationRequestedDays db.holidays s e3 = 3) :
    validate_leave_request db today emp s e2 lt none = none ∧
    validate_leave_request db today emp s e3 lt none =
      some (ValidationError.AllowanceExceeded 3 2) := by
  have hne2 : validationRequestedDays db.holidays s e2 ≠ 0 := by omega
  have hne3 : validationRequestedDays db.holidays s e3 ≠ 0 := by omega
  have hse2 : s ≤ e2 := start_le_end_of_requested_ne_zero hne2
  have hse3 : s ≤ e3 := start_le_end_of_requested_ne_zero hne3
  have htaken : daysTaken db.holidays db.requests emp.id s none = 0 := by
    simp [daysTaken, hmonth]
  constructor
  · simp [validate_leave_request, hpast, Nat.not_lt.mpr hse2, h2, hover2, htaken, hallow]
  · simp [validate_leave_request, hpast, Nat.not_lt.mpr hse3, h3, hover3, htaken, hallow]

/-- C5 amended-theorem witness: Mon Jan 8 – Tue Jan 9 2024 (2 business
days) is accepted; Mon Jan 8 – Wed Jan 10 (3 business days) is rejected
with AllowanceExceeded and remaining 2. -/
theorem C5_witness :
    validate_leave_request emptyDb 738886 sampleEmployee 738893 738894 "Vacation" none = none ∧
    validate_leave_request emptyDb 738886 sampleEmployee 738893 738895 "Vacation" none =
      some (ValidationError.AllowanceExceeded 3 2) :=
  C5_allowance_boundary emptyDb 738886 sampleEmployee 738893 738894 738895 "Vacation"
    rfl (by decide) (by decide) (by decide) (by decide) (by decide) (by decide)

/-! ## C6 -/

/-- C6: the overlap rule treats closed intervals sharing one boundary
day as overlapping — an existing pending/approved request on
[day1, day3] makes a new request on [day3, day5] fail with Overlap —
and only pending or approved, non-excluded requests can ever cause an
Overlap rejection: if every such request misses the range, validation
never reports Overlap. -/
theorem C6_overlap_boundary (db : Db) (today : Nat) (emp : Employee)
    (d1 d3 d5 : Nat) (lt : String) (ex : Option Nat) (r : LeaveRequest)
    (hr : r ∈ db.requests) (hremp : r.employee = emp.id)
    (hrstat : r.status = Status.pending ∨ r.status = Status.approved)
    (hrs : r.start_date = d1) (hre : r.end_date = d3)
    (hd13 : d1 ≤ d3) (hd35 : d3 ≤ d5)
    (hex : notExcluded ex r.id = true)
    (hpast : pastDateCheck today d3 lt = none)
    (hwork : validationRequestedDays db.holidays d3 d5 ≠ 0) :
    overlapExists db.requests emp.id d3 d5 ex = true ∧
    validate_leave_request db today emp d3 d5 lt ex = some ValidationError.Overlap ∧
    ∀ db2 : Db,
      (∀ r2 ∈ db2.requests, r2.employee = emp.id →
        (r2.status = Status.pending ∨ r2.status = Status.approved) →
        notExcluded ex r2.id = true →
        ¬ (r2.start_date ≤ d5 ∧ d3 ≤ r2.end_date)) →
      validate_leave_request db2 today emp d3 d5 lt ex ≠ some ValidationError.Overlap := by
  have hov : overlapExists db.requests emp.id d3 d5 ex = true := by
    rw [overlapExists, List.any_eq_true]
    refine ⟨r, hr, ?_⟩
    have h1 : r.start_date ≤ d5 := by omega
    have h2 : d3 ≤ r.end_date := by omega
    rcases hrstat with hst | hst <;>
      simp [hremp, hst, h1, h2, hex]
  refine ⟨hov, ?_, ?_⟩
  · have hns : ¬ d5 < d3 := by omega
    simp [validate_leave_request, hpast, hns, hwork, hov]
  · intro db2 hclean hcontra
    have hov2 := validate_overlap_inv hcontra
    rw [overlapExists, List.any_eq_true] at hov2
    obtain ⟨r2, hr2, hp⟩ := hov2
    simp only [Bool.and_eq_true, Bool.or_eq_true, decide_eq_true_eq] at hp
    obtain ⟨⟨⟨⟨hpe, hps⟩, hp1⟩, hp2⟩, hp3⟩ := hp
    exact hclean r2 hr2 hpe hps hp3 ⟨hp1, hp2⟩

/-- C6 witness: existing pending [Mon Jan 8, Wed Jan 10] makes
[Wed Jan 10, Fri Jan 12] fail with Overlap; against a cancelled copy of
the same request, validation does not report Overlap. -/
theorem C6_witness :
    overlapExists pendingDb.requests sampleEmployee.id 738895 738897 none = true ∧
    validate_leave_request pendingDb 738886 sampleEmployee 738895 738897 "Vacation" none =
      some ValidationError.Overlap ∧
    validate_leave_request cancelledDb 738886 sampleEmployee 738895 738897 "Vacation" none ≠
      some ValidationError.Overlap :=
  have h := C6_overlap_boundary pendingDb 738886 sampleEmployee 738893 738895 738897 "Vacation"
    none pendingRequest (by decide) rfl (by decide) rfl rfl (by decide) (by decide)
    (by decide) (by decide) (by decide)
  ⟨h.1, h.2.1, h.2.2 cancelledDb (by decide)⟩

/-! ## C7 -/

/-- Inserting a fresh request and then excluding its id leaves every
stage of `validate_leave_request` unchanged: the overlap and
monthly-allowance queries see exactly the rows they saw before the
insert. -/
theorem validate_insert_excluded (db db1 : Db) (today : Nat) (emp : Employee)
    (s e : Nat) (lt : String) (newId : Nat) (req : LeaveRequest)
    (hhol : db1.holidays = db.holidays) (hreqs : db1.requests = db.requests ++ [req])
    (hfresh : ∀ r ∈ db.requests, r.id ≠ newId) (hid : req.id = newId) :
    validate_leave_request db1 today emp s e lt (some newId) =
      validate_leave_request db today emp s e lt none := by
  have hov : overlapExists db1.requests emp.id s e (some newId) =
      overlapExists db.requests emp.id s e none := by
    rw [hreqs, overlapExists, overlapExists, List.any_append]
    have hnew : (decide (req.employee = emp.id) &&
        (decide (req.status = Status.pending) || decide (req.status = Status.approved)) &&
        decide (req.start_date ≤ e) && decide (s ≤ req.end_date) &&
        notExcluded (some newId) req.id) = false := by
      simp [notExcluded, hid]
    simp only [List.any_cons, List.any_nil, hnew, Bool.or_false]
    exact any_congr_mem fun r hr => by
      have hne : ¬ newId = r.id := fun h => hfresh r hr h.symm
      simp [notExcluded, hne]
  have hmon : requestsThisMonth db1.requests emp.id s (some newId) =
      requestsThisMonth db.requests emp.id s none := by
    rw [hreqs, requestsThisMonth, requestsThisMonth, List.filter_append]
    have hnew : (decide (req.employee = emp.id) &&
        (decide (req.status = Status.pending) || decide (req.status = Status.approved)) &&
        sameMonth req.start_date s && notExcluded (some newId) req.id) = false := by
      simp [notExcluded, hid]
    simp only [List.filter_cons, List.filter_nil, hnew, Bool.false_eq_true, if_false,
      List.append_nil]
    exact List.filter_congr fun r hr => by
      have hne : ¬ newId = r.id := fun h => hfresh r hr h.symm
      simp [notExcluded, hne]
  have hdays : daysTaken db.holidays db1.requests emp.id s (some newId) =
      daysTaken db.holidays db.requests emp.id s none := by
    rw [daysTaken, daysTaken, hmon]
  simp only [validate_leave_request, hhol, hov, hdays]

/-- C7: after a successful create, an update submitted with the very
same field values passes the self-excluding validation, succeeds,
leaves the request pending, and the request's audit trail is exactly
["created", "updated"]. -/
theorem C7_create_update_roundtrip (db : Db) (today : Nat) (emp : Employee)
    (s e : Nat) (lt reason : String) (newId : Nat)
    (hemp : employeeById db emp.id = some emp)
    (hfresh : ∀ r ∈ db.requests, r.id ≠ newId)
    (haud : ∀ a ∈ db.audits, a.leave_request ≠ newId)
    (hval : validate_leave_request db today emp s e lt none = none) :
    (handle_modal_submission db today emp s e lt reason newId).2 = OpResult.ok ∧
    (handle_update_submission (handle_modal_submission db today emp s e lt reason newId).1
        today newId s e lt reason).2 = OpResult.ok ∧
    (requestById (handle_update_submission
        (handle_modal_submission db today emp s e lt reason newId).1
        today newId s e lt reason).1 newId).map LeaveRequest.status = some Status.pending ∧
    ((handle_update_submission (handle_modal_submission db today emp s e lt reason newId).1
        today newId s e lt reason).1.audits.filter
        (fun a => decide (a.leave_request = newId))).map LeaveRequestAudit.action =
      ["created", "updated"] := by
  set nr : LeaveRequest :=
    { id := newId, employee := emp.id, leaveType := lt, start_date := s,
      end_date := e, reason := reason, status := Status.pending, approver := none,
      slack_channel_id := none, slack_message_ts := none } with hnr
  set db1 : Db :=
    { db with
        requests := db.requests ++ [nr]
        audits := db.audits ++
          [{ leave_request := newId, action := "created", performed_by := some emp.id }] }
    with hdb1
  have hcreate : handle_modal_submission db today emp s e lt reason newId =
      (db1, OpResult.ok) := by
    simp only [handle_modal_submission, hval, hdb1, hnr]
  have hfind1 : requestById db1 newId = some nr := by
    rw [hdb1]
    simp only [requestById]
    rw [List.find?_append, List.find?_eq_none.mpr fun r hr => by simp [hfresh r hr]]
    simp [hnr]
  have hemp1 : employeeById db1 nr.employee = some emp := by
    rw [hdb1, hnr]
    exact hemp
  have hval1 : validate_leave_request db1 today emp s e lt (some newId) = none :=
    (validate_insert_excluded db db1 today emp s e lt newId nr
      (by rw [hdb1]) (by rw [hdb1]) hfresh (by rw [hnr])).trans hval
  have hupdate : handle_update_submission db1 today newId s e lt reason =
      ({ db1 with
          requests := replaceRequest db1.requests newId nr
          audits := db1.audits ++
            [{ leave_request := newId, action := "updated", performed_by := some emp.id }] },
        OpResult.ok) := by
    simp only [handle_update_submission, hfind1]
    rw [hemp1]
    simp [hval1, hnr]
  rw [hcreate]
  refine ⟨rfl, ?_, ?_, ?_⟩
  · show (handle_update_submission db1 today newId s e lt reason).2 = OpResult.ok
    rw [hupdate]
  · show (requestById (handle_update_submission db1 today newId s e lt reason).1 newId).map
      LeaveRequest.status = some Status.pending
    rw [hupdate]
    have h3 := find?_replaceRequest db1.requests newId nr nr hfind1 (by rw [hnr])
    show ((replaceRequest db1.requests newId nr).find? fun r => decide (r.id = newId)).map
      LeaveRequest.status = some Status.pending
    rw [h3]
    simp [hnr]
  · show ((handle_update_submission db1 today newId s e lt reason).1.audits.filter
      (fun a => decide (a.leave_request = newId))).map LeaveRequestAudit.action =
      ["created", "updated"]
    rw [hupdate]
    have hnilaud : (db.audits.filter fun a => decide (a.leave_request = newId)) = [] :=
      List.filter_eq_nil_iff.mpr fun a ha => by simp [haud a ha]
    show (((db1.audits ++
        [({ leave_request := newId, action := "updated", performed_by := some emp.id } :
          LeaveRequestAudit)]).filter
        (fun a => decide (a.leave_request = newId))).map LeaveRequestAudit.action) =
      ["created", "updated"]
    rw [hdb1]
    simp [List.filter_append, hnilaud]

/-- C7 witness: in an empty store, creating a Mon–Tue request as
request 42 and updating it with identical values leaves it pending with
audit trail ["created", "updated"]. -/
theorem C7_witness :
    (handle_modal_submission emptyDb 738886 sampleEmployee 738893 738894 "Vacation" "trip" 42).2 =
      OpResult.ok ∧
    (handle_update_submission
        (handle_modal_submission emptyDb 738886 sampleEmployee 738893 738894 "Vacation" "trip" 42).1
        738886 42 738893 738894 "Vacation" "trip").2 = OpResult.ok ∧
    (requestById (handle_update_submission
        (handle_modal_submission emptyDb 738886 sampleEmployee 738893 738894 "Vacation" "trip" 42).1
        738886 42 738893 738894 "Vacation" "trip").1 42).map LeaveRequest.status =
      some Status.pending ∧
    ((handle_update_submission
        (handle_modal_submission emptyDb 738886 sampleEmployee 738893 738894 "Vacation" "trip" 42).1
        738886 42 738893 738894 "Vacation" "trip").1.audits.filter
        (fun a => decide (a.leave_request = 42))).map LeaveRequestAudit.action =
      ["created", "updated"] :=
  C7_create_update_roundtrip emptyDb 738886 sampleEmployee 738893 738894 "Vacation" "trip" 42
    (by decide) (by decide) (by decide) (by decide)

/-! ## C9 -/

/-- C9: a public announcement is posted exactly on the approval of a
pending request whose leave type is outside the retrospective set — in
that case it goes to the channel `post_public_announcement` resolves
(team channel, else fallback, which always resolves when a fallback is
configured) — and the cancel and reject paths never post one. -/
theorem C9_announcement_policy (db : Db) (fallback : Option String) (manager : Employee)
    (rid : Nat) (req : LeaveRequest) (hreq : requestById db rid = some req) :
    (handle_cancel_submission db rid).announcement = none ∧
    (handle_button_actions_decide db fallback manager "reject_leave" rid).announcement = none ∧
    (req.status = Status.pending → req.leaveType ∉ retrospectiveTypes →
      (handle_button_actions_decide db fallback manager "approve_leave" rid).announcement =
        post_public_announcement db fallback { req with status := Status.approved }) ∧
    (∀ action_id : String,
      (handle_button_actions_decide db fallback manager action_id rid).announcement ≠ none →
      action_id = "approve_leave" ∧ req.status = Status.pending ∧
      req.leaveType ∉ retrospectiveTypes) ∧
    (∀ (c : String) (r2 : LeaveRequest), post_public_announcement db (some c) r2 ≠ none) := by
  refine ⟨?_, ?_, ?_, ?_, ?_⟩
  · by_cases hst : req.status = Status.pending <;>
      simp [handle_cancel_submission, hreq, hst]
  · by_cases hst : req.status = Status.pending <;>
      simp [handle_button_actions_decide, hreq, hst]
  · intro hst hretro
    simp only [handle_button_actions_decide, hreq, hst]
    simp [hretro]
  · intro action_id hann
    by_cases hst : req.status = Status.pending
    · by_cases ha : action_id = "approve_leave"
      · subst ha
        by_cases hretro : req.leaveType ∈ retrospectiveTypes
        · simp [handle_button_actions_decide, hreq, hst, hretro] at hann
        · exact ⟨rfl, hst, hretro⟩
      · by_cases hb : action_id = "reject_leave" <;>
          simp [handle_button_actions_decide, hreq, hst, ha, hb] at hann
    · simp [handle_button_actions_decide, hreq, hst] at hann
  · intro c r2
    simp only [post_public_announcement]
    split <;> simp

/-- C9 witness: in a store with a team channel configured, approving
the pending Vacation request announces to the resolved channel, while
reject and cancel announce nothing. -/
theorem C9_witness :
    (handle_cancel_submission teamDb 10).announcement = none ∧
    (handle_button_actions_decide teamDb (some "C-FB") sampleManager "reject_leave" 10).announcement =
      none ∧
    (handle_button_actions_decide teamDb (some "C-FB") sampleManager "approve_leave" 10).announcement =
      post_public_announcement teamDb (some "C-FB") { pendingRequest with status := Status.approved } ∧
    post_public_announcement teamDb (some "C-FB")
      { pendingRequest with status := Status.approved } ≠ none :=
  have h := C9_announcement_policy teamDb (some "C-FB") sampleManager 10 pendingRequest (by decide)
  ⟨h.1, h.2.1, h.2.2.1 rfl (by decide),
   h.2.2.2.2 "C-FB" { pendingRequest with status := Status.approved }⟩

end Leavebot
